import Mathlib

set_option maxHeartbeats 1000000

/-! Shallow embedding of the event-dispatch and IME core of the mado toolkit
    (the callbacks type of package app) and of the error classification of
    package glfw.  Go channels become explicit single-slot Option fields with
    non-blocking receive, the pending event queue becomes a list, machine
    integers become Int or Nat, and Go panics become an explicit error value
    of an Except result.  Window and mado package code that is not under src
    is modelled from the spec; every such definition says so in its doc
    comment. -/

/-- key.Range: a pair of rune offsets into editable text; Start may exceed
    End, denoting a reversed selection. -/
structure key.Range where
  Start : Int
  End : Int
deriving DecidableEq, Repr

/-- The Selection component of mado.EditorState (modelled from the spec:
    mado.EditorState is not under src; the spec gives Selection a Range). -/
structure mado.SelectionData where
  Range : key.Range
deriving DecidableEq, Repr

/-- The Snippet component of mado.EditorState (modelled from the spec). -/
structure mado.SnippetData where
  Range : key.Range
deriving DecidableEq, Repr

/-- mado.EditorState, the externally visible IME state (modelled from the
    spec: Selection range, composition range, snippet range). -/
structure mado.EditorState where
  Selection : mado.SelectionData
  Compose : key.Range
  Snippet : mado.SnippetData
deriving DecidableEq, Repr

/-- event.Event: the tagged union of events this core interprets, namely
    mado.WakeupEvent, key.EditEvent, key.SelectionEvent and key.SnippetEvent;
    all other input, window and system events are opaque to the dispatcher
    and are carried by the indexed other constructor. -/
inductive event.Event where
  | wakeup : event.Event
  | edit : key.Range → String → event.Event
  | selection : key.Range → event.Event
  | snippet : key.Range → event.Event
  | other : Nat → event.Event
deriving DecidableEq, Repr

/-- mado.Config (modelled from the spec: a configuration record carrying the
    decoration flag and the derived decoration height; other window
    configuration fields are irrelevant to the dispatcher). -/
structure mado.Config where
  Decorated : Bool := false
  DecoHeight : Int := 0
deriving DecidableEq, Repr

/-- mado.Metric (modelled from the spec: opaque display metrics handed to
    each configuration option; the dispatcher never inspects them). -/
structure mado.Metric where
  PxPerDp : Int := 1
  PxPerSp : Int := 1
deriving DecidableEq, Repr

/-- mado.Option: a configuration mutator applied to a metric and a config. -/
abbrev mado.Option := mado.Metric → mado.Config → mado.Config

/-- mado.DecoHeightOpt (modelled from the spec: not under src; it records the
    derived decoration height in the configuration record). -/
def mado.DecoHeightOpt (h : Int) : mado.Option :=
  fun _ cfg => { cfg with DecoHeight := h }

/-- The observable effects of one dispatcher call: an event handed to the
    window processing routine, a driver Configure call, a driver Perform
    call. -/
inductive Eff where
  | proc : event.Event → Eff
  | configure : List mado.Option → Eff
  | perform : Nat → Eff

/-- The wake-up callback handed to the window by SetDriver (modelled from the
    spec: the window side of the handoff is not under src; a bound driver
    yields a callback that forces delivery of a WakeupEvent, a cleared driver
    yields a no-op). -/
inductive WakeupFn where
  | noop : WakeupFn
  | wake : Nat → WakeupFn
deriving DecidableEq, Repr

/-- Modelled from the spec: invoking the wake-up callback forces delivery of
    a WakeupEvent for a bound driver and does nothing for a cleared one. -/
def WakeupFn.run : WakeupFn → List event.Event
  | WakeupFn.noop => []
  | WakeupFn.wake _ => [event.Event.wakeup]

abbrev SemanticID := Nat

/-- The semantic tree storage on the window (modelled from the spec: the
    window side is not under src): the current snapshot, the previous frame
    snapshot kept solely for diffing, the tree the next rebuild will produce,
    and the rebuilt-this-cycle flag. -/
structure SemanticState where
  Root : SemanticID := 0
  Tree : List SemanticID := []
  PrevTree : List SemanticID := []
  NextTree : List SemanticID := []
  UpToDate : Bool := false
deriving DecidableEq, Repr

/-- Window decoration state read and written by the configuration branch. -/
structure Decorations where
  Enabled : Bool
  Height : Int
deriving DecidableEq, Repr

/-- The window state visible to the dispatcher.  The Go channels Options,
    Actions, Destroy and WakeupFuncs are modelled as single-slot fields with
    non-blocking receive, per the spec's single-slot mailbox reading. -/
structure Window where
  ImeState : mado.EditorState
  Semantic : SemanticState
  Decorations : Decorations
  Metric : mado.Metric
  Options : Option (List mado.Option)
  Actions : Option Nat
  Destroy : Bool
  WakeupSlot : WakeupFn

/-- The callbacks receiver: window, driver handle, reentrancy flag and the
    pending event queue. -/
structure CState where
  w : Window
  d : Option Nat
  busy : Bool
  waitEvents : List event.Event

/-- A Go panic, or exhaustion of the fuel bounding the drain loop model. -/
inductive DispatchErr where
  | fault : String → DispatchErr
  | fuelOut : DispatchErr
deriving DecidableEq, Repr

/-- Modelled from the spec: Window.ProcessEvent is window code not under src.
    It returns whether the event was handled and may submit further events
    back through the dispatcher while the drain is active; per the spec the
    EditorState is mutated only by the IME component, so processing leaves
    the modelled window state unchanged.  The dispatcher is therefore
    parameterized by the resubmitted events (gen) and the handled result
    (hnd); specGen and specHnd are the canonical instance that resubmits
    nothing and handles everything. -/
def specGen : event.Event → List event.Event := fun _ => []

/-- The canonical handled result of the modelled processing routine. -/
def specHnd : event.Event → Bool := fun _ => true

/-- Modelled from the spec: mado.EditorState.Replace mutates the collaborator
    owned text buffer and its range bookkeeping; the spec does not fix the
    bookkeeping, so the theorems quantify over an arbitrary replacement
    function and this canonical instance leaves the recorded ranges
    unchanged. -/
def specReplace : mado.EditorState → key.Range → String → mado.EditorState :=
  fun st _ _ => st

/-- Modelled from the spec: Window.UpdateState, the per-cycle window state
    update; it touches none of the fields modelled here. -/
def Window.UpdateState (w : Window) : Window := w

/-- Modelled from the spec: Window.UpdateSemantics forces a semantic tree
    rebuild, idempotent within a cycle; rebuilding snapshots the old current
    tree as the previous tree, so on the first frame the previous tree stays
    empty. -/
def Window.UpdateSemantics (w : Window) : Window :=
  if w.Semantic.UpToDate then w
  else { w with Semantic := { w.Semantic with
    PrevTree := w.Semantic.Tree,
    Tree := w.Semantic.NextTree,
    UpToDate := true } }

/-- Modelled from the spec: Window.CollectSemanticDiffs appends the IDs of
    changed subtrees, pre-order from the given root, to the accumulator. -/
def Window.CollectSemanticDiffs (w : Window) (diffs : List SemanticID)
    (root : SemanticID) : List SemanticID :=
  diffs ++ (root :: w.Semantic.PrevTree).filter
    (fun i => !(w.Semantic.Tree.contains i))

/-- The drain loop of callbacks.Event (part_000 lines 46 to 52): pop the
    queue front and hand it to the window processing routine; events
    resubmitted during processing (gen e) are appended at the tail of the
    queue.  Fuel bounds the number of iterations, since processing may
    generate new events without bound; the trace lists the events handed to
    processing in order, and the Bool is the handled result of the last
    processed event. -/
def drainLoop (gen : event.Event → List event.Event) (hnd : event.Event → Bool)
    (fuel : Nat) (q : List event.Event) (h : Bool) : Option (List Eff × Bool) :=
  match q with
  | [] => some ([], h)
  | e :: rest =>
    match fuel with
    | 0 => none
    | f + 1 =>
      match drainLoop gen hnd f (rest ++ gen e) (hnd e) with
      | none => none
      | some (tr, h2) => some (Eff.proc e :: tr, h2)

/-- The configuration branch of callbacks.Event (part_000 lines 62 to 73):
    fold the pending option list left to right over a record seeded with the
    current decoration flag, store the folded flag back on the window, derive
    the decoration height (zero when decorations end up disabled), and hand
    the finalized option list to the driver. -/
def applyConfig (w : Window) (opts : List mado.Option) : Window × List Eff :=
  let cnf := opts.foldl (fun cfg opt => opt w.Metric cfg)
    ({ Decorated := w.Decorations.Enabled } : mado.Config)
  let w1 := { w with
    Decorations := { w.Decorations with Enabled := cnf.Decorated },
    Options := none }
  let decoHeight := if w1.Decorations.Enabled then w1.Decorations.Height else 0
  (w1, [Eff.configure (opts ++ [mado.DecoHeightOpt decoHeight])])

/-- The two non-blocking post-drain checks of callbacks.Event after a
    WakeupEvent (part_000 lines 60 to 81). -/
def postWakeup (w : Window) : Window × List Eff :=
  let step1 := match w.Options with
    | some opts => applyConfig w opts
    | none => (w, [])
  match step1.1.Actions with
  | some acts => ({ step1.1 with Actions := none }, step1.2 ++ [Eff.perform acts])
  | none => (step1.1, step1.2)

/-- callbacks.Event (part_000 lines 37 to 83): panic when no driver is
    bound, append the event to the queue, return immediately when a drain is
    already active, otherwise drain the queue, then, unless the window is
    tearing down, run the per-cycle update and, when the delivered event is
    a WakeupEvent, the two non-blocking configuration and action checks. -/
def callbacks.Event (gen : event.Event → List event.Event)
    (hnd : event.Event → Bool) (fuel : Nat) (c : CState) (e : event.Event) :
    Except DispatchErr (Bool × CState × List Eff) :=
  match c.d with
  | none => Except.error (DispatchErr.fault "event while no driver active")
  | some _ =>
    if c.busy then
      Except.ok (true, { c with waitEvents := c.waitEvents ++ [e] }, [])
    else
      match drainLoop gen hnd fuel (c.waitEvents ++ [e]) false with
      | none => Except.error DispatchErr.fuelOut
      | some (tr, handled) =>
        let c1 : CState := { c with waitEvents := [] }
        if c1.w.Destroy then
          Except.ok (handled, c1, tr)
        else
          let w1 := Window.UpdateState c1.w
          match e with
          | event.Event.wakeup =>
            let step := postWakeup w1
            Except.ok (handled, { c1 with w := step.1 }, tr ++ step.2)
          | _ => Except.ok (handled, { c1 with w := w1 }, tr)

/-- callbacks.SetDriver (part_000 lines 28 to 35): replace the driver handle
    and hand the window the corresponding wake-up callback through the
    single-slot handoff. -/
def callbacks.SetDriver (c : CState) (d : Option Nat) : CState :=
  let wakeup := match d with
    | some dd => WakeupFn.wake dd
    | none => WakeupFn.noop
  { c with d := d, w := { c.w with WakeupSlot := wakeup } }

/-- callbacks.AppendSemanticDiffs (part_000 lines 98 to 104); the in-place
    window update is made explicit by returning the updated state alongside
    the accumulator. -/
def callbacks.AppendSemanticDiffs (c : CState) (diffs : List SemanticID) :
    CState × List SemanticID :=
  let w := Window.UpdateSemantics c.w
  let c1 : CState := { c with w := w }
  match w.Semantic.PrevTree with
  | [] => (c1, diffs)
  | root :: _ => (c1, Window.CollectSemanticDiffs w diffs root)

/-- callbacks.EditorState (part_000 lines 111 to 113). -/
def callbacks.EditorState (c : CState) : mado.EditorState := c.w.ImeState

/-- callbacks.SetComposingRegion (part_000 lines 115 to 117). -/
def callbacks.SetComposingRegion (c : CState) (r : key.Range) : CState :=
  { c with w := { c.w with ImeState := { c.w.ImeState with Compose := r } } }

/-- callbacks.SetEditorSelection (part_000 lines 137 to 140): store the
    range, then emit a SelectionEvent through the dispatcher. -/
def callbacks.SetEditorSelection (gen : event.Event → List event.Event)
    (hnd : event.Event → Bool) (fuel : Nat) (c : CState) (r : key.Range) :
    Except DispatchErr (CState × List Eff) := do
  let c1 : CState := { c with w := { c.w with ImeState := { c.w.ImeState with
    Selection := { c.w.ImeState.Selection with Range := r } } } }
  let (_, c2, tr) ← callbacks.Event gen hnd fuel c1 (event.Event.selection r)
  pure (c2, tr)

/-- callbacks.EditorReplace (part_000 lines 131 to 135): apply the
    collaborator-owned replacement, then emit an EditEvent and a
    SnippetEvent carrying the post-edit snippet range. -/
def callbacks.EditorReplace (gen : event.Event → List event.Event)
    (hnd : event.Event → Bool)
    (rep : mado.EditorState → key.Range → String → mado.EditorState)
    (fuel : Nat) (c : CState) (r : key.Range) (text : String) :
    Except DispatchErr (CState × List Eff) := do
  let c1 : CState := { c with w := { c.w with ImeState := rep c.w.ImeState r text } }
  let (_, c2, tr1) ← callbacks.Event gen hnd fuel c1 (event.Event.edit r text)
  let (_, c3, tr2) ← callbacks.Event gen hnd fuel c2
    (event.Event.snippet c2.w.ImeState.Snippet.Range)
  pure (c3, tr1 ++ tr2)

/-- callbacks.EditorInsert (part_000 lines 119 to 129): replace the current
    selection, then collapse the selection to follow the inserted text; the
    cursor advance uses the rune count of the text (String.length counts
    unicode scalar values, as utf8.RuneCountInString does). -/
def callbacks.EditorInsert (gen : event.Event → List event.Event)
    (hnd : event.Event → Bool)
    (rep : mado.EditorState → key.Range → String → mado.EditorState)
    (fuel : Nat) (c : CState) (text : String) :
    Except DispatchErr (CState × List Eff) := do
  let sel := c.w.ImeState.Selection.Range
  let (c1, tr1) ← callbacks.EditorReplace gen hnd rep fuel c sel text
  let start := if sel.End < sel.Start then sel.End else sel.Start
  let sel2 : key.Range :=
    { Start := start + (text.length : Int), End := start + (text.length : Int) }
  let (c2, tr2) ← callbacks.SetEditorSelection gen hnd fuel c1 sel2
  pure (c2, tr1 ++ tr2)

/-- callbacks.SetEditorSnippet (part_000 lines 142 to 148): a no-op when the
    requested range equals the current snippet range, otherwise emit a
    SnippetEvent; the function does not itself store the range. -/
def callbacks.SetEditorSnippet (gen : event.Event → List event.Event)
    (hnd : event.Event → Bool) (fuel : Nat) (c : CState) (r : key.Range) :
    Except DispatchErr (CState × List Eff) :=
  if (callbacks.EditorState c).Snippet.Range = r then
    Except.ok (c, [])
  else do
    let (_, c1, tr) ← callbacks.Event gen hnd fuel c (event.Event.snippet r)
    pure (c1, tr)

/-- glfw.ErrorCode (error.go line 10). -/
abbrev glfw.ErrorCode := Int

/-- glfw error code constants (error.go lines 14 to 29). -/
def glfw.notInitialized : glfw.ErrorCode := 0x00010001

def glfw.noCurrentContext : glfw.ErrorCode := 0x00010002

def glfw.invalidEnum : glfw.ErrorCode := 0x00010003

def glfw.invalidValue : glfw.ErrorCode := 0x00010004

def glfw.outOfMemory : glfw.ErrorCode := 0x00010005

def glfw.apiUnavailable : glfw.ErrorCode := 0x00010006

def glfw.versionUnavailable : glfw.ErrorCode := 0x00010007

def glfw.platformError : glfw.ErrorCode := 0x00010008

def glfw.formatUnavailable : glfw.ErrorCode := 0x00010009

def glfw.noWindowContext : glfw.ErrorCode := 0x0001000A

def glfw.cursorUnavailable : glfw.ErrorCode := 0x0001000B

def glfw.featureUnavailable : glfw.ErrorCode := 0x0001000C

def glfw.featureUnimplemented : glfw.ErrorCode := 0x0001000D

def glfw.platformUnavailable : glfw.ErrorCode := 0x0001000E

/-- glfw.Error (error.go lines 112 to 115). -/
structure glfw.Error where
  Code : glfw.ErrorCode
  Desc : String
deriving DecidableEq, Repr

/-- The four observable outcomes of glfw.acceptError: return nil, return the
    error, log it and return nil, or panic with it. -/
inductive glfw.AcceptOutcome where
  | returnedNil : glfw.AcceptOutcome
  | returnedErr : glfw.Error → glfw.AcceptOutcome
  | loggedNil : glfw.Error → glfw.AcceptOutcome
  | panicked : glfw.Error → glfw.AcceptOutcome
deriving DecidableEq, Repr

/-- glfw.fetchError (error.go lines 206 to 213): non-blocking receive from
    the one-slot lastError channel, nil when the slot is empty; the first
    component is the fetched error and the second the emptied slot. -/
def glfw.fetchError (slot : Option glfw.Error) :
    Option glfw.Error × Option glfw.Error :=
  match slot with
  | some err => (some err, none)
  | none => (none, none)

/-- glfw.acceptError (error.go lines 163 to 193): fetch the pending error;
    nil when none; return it when its code is accepted; log and return nil
    for an unaccepted platformError; panic for the documented programmer
    error codes and, after reporting, for any other unaccepted code. -/
def glfw.acceptError (codes : List glfw.ErrorCode) (slot : Option glfw.Error) :
    glfw.AcceptOutcome × Option glfw.Error :=
  let p := glfw.fetchError slot
  match p.1 with
  | none => (glfw.AcceptOutcome.returnedNil, p.2)
  | some err =>
    if codes.contains err.Code then
      (glfw.AcceptOutcome.returnedErr err, p.2)
    else if err.Code = glfw.platformError then
      (glfw.AcceptOutcome.loggedNil err, p.2)
    else if err.Code = glfw.notInitialized ∨ err.Code = glfw.noCurrentContext
        ∨ err.Code = glfw.invalidEnum ∨ err.Code = glfw.invalidValue
        ∨ err.Code = glfw.outOfMemory ∨ err.Code = glfw.noWindowContext then
      (glfw.AcceptOutcome.panicked err, p.2)
    else
      (glfw.AcceptOutcome.panicked err, p.2)

/-- A concrete window used by the closed witnesses: empty IME ranges, empty
    semantic trees, decorations enabled, no pending batches. -/
def exWindow : Window :=
  { ImeState := { Selection := { Range := { Start := 0, End := 0 } },
                  Compose := { Start := 0, End := 0 },
                  Snippet := { Range := { Start := 0, End := 0 } } },
    Semantic := {},
    Decorations := { Enabled := true, Height := 20 },
    Metric := {},
    Options := none,
    Actions := none,
    Destroy := false,
    WakeupSlot := WakeupFn.noop }

/-- A concrete idle dispatcher state with a bound driver. -/
def exState : CState := { w := exWindow, d := some 0, busy := false, waitEvents := [] }

/-- A concrete dispatcher state in the middle of a drain. -/
def exBusy : CState :=
  { exState with busy := true, waitEvents := [event.Event.other 9] }

/-- The number of SnippetEvents handed to processing in a trace. -/
def snippetCount (tr : List Eff) : Nat :=
  tr.countP (fun eff => match eff with
    | Eff.proc (event.Event.snippet _) => true
    | _ => false)

/-- Unfolding lemma: the drain loop returns immediately on an empty queue. -/
theorem drainLoop_nil (gen : event.Event → List event.Event)
    (hnd : event.Event → Bool) (fuel : Nat) (h : Bool) :
    drainLoop gen hnd fuel [] h = some ([], h) := by
  rw [drainLoop]

/-- Unfolding lemma: one drain step hands the queue front to processing and
    appends the events resubmitted during that processing to the tail. -/
theorem drainLoop_cons (gen : event.Event → List event.Event)
    (hnd : event.Event → Bool) (fuel : Nat) (e : event.Event)
    (rest : List event.Event) (h : Bool) :
    drainLoop gen hnd (fuel+1) (e :: rest) h
      = (drainLoop gen hnd fuel (rest ++ gen e) (hnd e)).map
          (fun p => (Eff.proc e :: p.1, p.2)) := by
  rw [drainLoop]
  cases drainLoop gen hnd fuel (rest ++ gen e) (hnd e) with
  | none => rfl
  | some p => rfl

/-- A singleton drain under the canonical processing model. -/
theorem drainLoop_one (hnd : event.Event → Bool) (fuel : Nat) (e : event.Event)
    (h : Bool) :
    drainLoop specGen hnd (fuel+1) [e] h = some ([Eff.proc e], hnd e) := by
  rw [drainLoop_cons]
  rw [show ([] : List event.Event) ++ specGen e = [] from rfl]
  rw [drainLoop_nil]
  rfl

/-- FIFO of the drain loop: however many events are submitted later (the
    suffix r and anything resubmitted during processing), the events already
    queued in q are handed to processing first and in order. -/
theorem drainLoop_fifo (gen : event.Event → List event.Event)
    (hnd : event.Event → Bool) :
    ∀ (q r : List event.Event) (fuel : Nat) (h h2 : Bool) (tr : List Eff),
      drainLoop gen hnd fuel (q ++ r) h = some (tr, h2) →
      tr.take q.length = q.map Eff.proc := by
  intro q
  induction q with
  | nil => intro r fuel h h2 tr _; simp
  | cons e q ih =>
    intro r fuel h h2 tr hdr
    match fuel with
    | 0 => rw [drainLoop.eq_def] at hdr; simp at hdr
    | f + 1 =>
      rw [List.cons_append, drainLoop_cons] at hdr
      cases hInner : drainLoop gen hnd f ((q ++ r) ++ gen e) (hnd e) with
      | none => rw [hInner] at hdr; cases hdr
      | some p =>
        rw [hInner] at hdr
        obtain ⟨tr1, hb1⟩ := p
        simp only [Option.map, Option.some.injEq, Prod.mk.injEq] at hdr
        obtain ⟨htr, hh⟩ := hdr
        subst htr
        have hq := ih (r ++ gen e) f (hnd e) hb1 tr1
          (by rw [← List.append_assoc]; exact hInner)
        simp [List.take, hq]

/-- The post-wakeup checks never touch the IME state. -/
theorem postWakeup_ime (w : Window) : (postWakeup w).1.ImeState = w.ImeState := by
  unfold postWakeup applyConfig
  cases w.Options with
  | none => cases hA : w.Actions <;> simp [hA]
  | some opts => cases hA : w.Actions <;> simp [hA]

/-- Shape of every successful dispatcher call: the IME state, the driver
    handle and the busy flag are untouched, and a completed top-level call
    leaves the queue empty. -/
theorem event_ok_shape (gen : event.Event → List event.Event)
    (hnd : event.Event → Bool) (fuel : Nat) (c : CState) (e : event.Event)
    (b : Bool) (c2 : CState) (tr : List Eff)
    (h : callbacks.Event gen hnd fuel c e = Except.ok (b, c2, tr)) :
    c2.w.ImeState = c.w.ImeState ∧ c2.d = c.d ∧ c2.busy = c.busy
      ∧ (c.busy = false → c2.waitEvents = []) := by
  unfold callbacks.Event at h
  cases hdc : c.d with
  | none => rw [hdc] at h; cases h
  | some dd =>
    rw [hdc] at h
    by_cases hb : c.busy = true
    · rw [if_pos hb] at h
      simp only [Except.ok.injEq, Prod.mk.injEq] at h
      obtain ⟨hb1, hc2, htr⟩ := h
      subst hc2
      refine ⟨rfl, rfl, rfl, ?_⟩
      intro hbf; rw [hb] at hbf; cases hbf
    · rw [if_neg hb] at h
      cases hdr : drainLoop gen hnd fuel (c.waitEvents ++ [e]) false with
      | none => rw [hdr] at h; cases h
      | some p =>
        rw [hdr] at h
        obtain ⟨tr0, hd0⟩ := p
        simp only at h
        by_cases hdes : c.w.Destroy = true
        · rw [if_pos (by simpa using hdes)] at h
          simp only [Except.ok.injEq, Prod.mk.injEq] at h
          obtain ⟨hb1, hc2, htr⟩ := h
          subst hc2
          exact ⟨rfl, rfl, rfl, fun _ => rfl⟩
        · rw [if_neg (by simpa using hdes)] at h
          cases e with
          | wakeup =>
            simp only [Except.ok.injEq, Prod.mk.injEq] at h
            obtain ⟨hb1, hc2, htr⟩ := h
            subst hc2
            refine ⟨?_, rfl, rfl, fun _ => rfl⟩
            exact postWakeup_ime _
          | edit r t =>
            simp only [Except.ok.injEq, Prod.mk.injEq] at h
            obtain ⟨hb1, hc2, htr⟩ := h
            subst hc2
            exact ⟨rfl, rfl, rfl, fun _ => rfl⟩
          | selection r =>
            simp only [Except.ok.injEq, Prod.mk.injEq] at h
            obtain ⟨hb1, hc2, htr⟩ := h
            subst hc2
            exact ⟨rfl, rfl, rfl, fun _ => rfl⟩
          | snippet r =>
            simp only [Except.ok.injEq, Prod.mk.injEq] at h
            obtain ⟨hb1, hc2, htr⟩ := h
            subst hc2
            exact ⟨rfl, rfl, rfl, fun _ => rfl⟩
          | other n =>
            simp only [Except.ok.injEq, Prod.mk.injEq] at h
            obtain ⟨hb1, hc2, htr⟩ := h
            subst hc2
            exact ⟨rfl, rfl, rfl, fun _ => rfl⟩

/-- A top-level dispatcher call on an idle state with an empty queue and a
    non-wakeup event, under the canonical processing model: it drains exactly
    that event and changes nothing but the queue. -/
theorem event_simple (hnd : event.Event → Bool) (fuel : Nat) (c : CState)
    (dd : Nat) (e : event.Event) (hd : c.d = some dd) (hb : c.busy = false)
    (hw : c.waitEvents = []) (hne : e ≠ event.Event.wakeup) :
    callbacks.Event specGen hnd (fuel+1) c e
      = Except.ok (hnd e, { c with waitEvents := [] }, [Eff.proc e]) := by
  unfold callbacks.Event
  rw [hd, hb, hw]
  simp only [Bool.false_eq_true, if_false, List.nil_append]
  rw [drainLoop_one]
  simp only
  by_cases hdes : c.w.Destroy = true
  · rw [if_pos (by simpa using hdes)]
  · rw [if_neg (by simpa using hdes)]
    cases e with
    | wakeup => exact absurd rfl hne
    | edit r t => simp [Window.UpdateState]
    | selection r => simp [Window.UpdateState]
    | snippet r => simp [Window.UpdateState]
    | other n => simp [Window.UpdateState]

/-- A completed SetEditorSelection leaves the IME state equal to the old one
    with the selection range replaced by the stored range. -/
theorem setSelection_sets (gen : event.Event → List event.Event)
    (hnd : event.Event → Bool) (fuel : Nat) (c : CState) (r : key.Range)
    (out : CState × List Eff)
    (h : callbacks.SetEditorSelection gen hnd fuel c r = Except.ok out) :
    out.1.w.ImeState = { c.w.ImeState with
      Selection := { c.w.ImeState.Selection with Range := r } } := by
  unfold callbacks.SetEditorSelection at h
  simp only [bind, Except.bind] at h
  cases he : callbacks.Event gen hnd fuel
      { c with w := { c.w with ImeState := { c.w.ImeState with
        Selection := { c.w.ImeState.Selection with Range := r } } } }
      (event.Event.selection r) with
  | error err => rw [he] at h; cases h
  | ok trip =>
    rw [he] at h
    obtain ⟨b2, c2, tr⟩ := trip
    simp only [pure, Except.pure, Except.ok.injEq] at h
    rw [← h]
    exact (event_ok_shape gen hnd fuel _ _ _ _ _ he).1

/-- C1: a delivery arriving while a drain is active (busy flag set) only
    appends the event to the pending queue and returns true, starting no
    nested drain; one drain step appends the events resubmitted during
    processing at the queue tail; events already queued are handed to
    processing before all later submissions and in submission order; and a
    completed top-level call returns with the busy flag clear and the queue
    fully drained, so at most one drain loop is ever active. -/
theorem C1_reentrancy_and_fifo :
    (∀ (gen : event.Event → List event.Event) (hnd : event.Event → Bool)
        (fuel : Nat) (c : CState) (e : event.Event) (dd : Nat),
        c.d = some dd → c.busy = true →
        callbacks.Event gen hnd fuel c e
          = Except.ok (true, { c with waitEvents := c.waitEvents ++ [e] }, []))
    ∧ (∀ (gen : event.Event → List event.Event) (hnd : event.Event → Bool)
        (fuel : Nat) (e : event.Event) (rest : List event.Event) (h : Bool),
        drainLoop gen hnd (fuel+1) (e :: rest) h
          = (drainLoop gen hnd fuel (rest ++ gen e) (hnd e)).map
              (fun p => (Eff.proc e :: p.1, p.2)))
    ∧ (∀ (gen : event.Event → List event.Event) (hnd : event.Event → Bool)
        (q r : List event.Event) (fuel : Nat) (h h2 : Bool) (tr : List Eff),
        drainLoop gen hnd fuel (q ++ r) h = some (tr, h2) →
        tr.take q.length = q.map Eff.proc)
    ∧ (∀ (gen : event.Event → List event.Event) (hnd : event.Event → Bool)
        (fuel : Nat) (c : CState) (e : event.Event) (b : Bool) (c2 : CState)
        (tr : List Eff),
        c.busy = false →
        callbacks.Event gen hnd fuel c e = Except.ok (b, c2, tr) →
        c2.busy = false ∧ c2.waitEvents = []) := by
  refine ⟨?_, ?_, ?_, ?_⟩
  · intro gen hnd fuel c e dd hd hb
    unfold callbacks.Event
    rw [hd, hb]
    simp
  · intro gen hnd fuel e rest h
    exact drainLoop_cons gen hnd fuel e rest h
  · intro gen hnd q r fuel h h2 tr hdr
    exact drainLoop_fifo gen hnd q r fuel h h2 tr hdr
  · intro gen hnd fuel c e b c2 tr hb h
    obtain ⟨_, _, hbusy, hwait⟩ := event_ok_shape gen hnd fuel c e b c2 tr h
    exact ⟨by rw [hbusy, hb], hwait hb⟩

/-- Witness for C1 at concrete inputs: a busy-state delivery is a pure queue
    append, a two-element queue is drained in order, and an idle-state
    delivery ends with the busy flag clear and the queue empty. -/
theorem C1_witness :
    callbacks.Event specGen specHnd 1 exBusy (event.Event.other 5)
      = Except.ok (true,
          { exBusy with waitEvents := exBusy.waitEvents ++ [event.Event.other 5] }, [])
    ∧ [Eff.proc (event.Event.other 1), Eff.proc (event.Event.other 2)].take
        [event.Event.other 1].length = [event.Event.other 1].map Eff.proc
    ∧ (({ exState with waitEvents := ([] : List event.Event) } : CState).busy = false
        ∧ ({ exState with waitEvents := ([] : List event.Event) } : CState).waitEvents = []) := by
  refine ⟨?_, ?_, ?_⟩
  · exact C1_reentrancy_and_fifo.1 specGen specHnd 1 exBusy (event.Event.other 5) 0 rfl rfl
  · exact C1_reentrancy_and_fifo.2.2.1 specGen specHnd [event.Event.other 1]
      [event.Event.other 2] 2 false true
      [Eff.proc (event.Event.other 1), Eff.proc (event.Event.other 2)] rfl
  · exact C1_reentrancy_and_fifo.2.2.2 specGen specHnd 1 exState (event.Event.other 1)
      true { exState with waitEvents := [] } [Eff.proc (event.Event.other 1)] rfl rfl

/-- C5: delivering an event with no driver bound aborts with the descriptive
    fault; the error result carries no state change and no processing trace,
    so the event is neither queued nor processed. -/
theorem C5_no_driver_fault (gen : event.Event → List event.Event)
    (hnd : event.Event → Bool) (fuel : Nat) (c : CState) (e : event.Event)
    (h : c.d = none) :
    callbacks.Event gen hnd fuel c e
      = Except.error (DispatchErr.fault "event while no driver active") := by
  unfold callbacks.Event
  rw [h]

/-- Witness for C5 at a concrete state with the driver cleared. -/
theorem C5_witness :
    callbacks.Event specGen specHnd 1 { exState with d := none } (event.Event.other 0)
      = Except.error (DispatchErr.fault "event while no driver active") :=
  C5_no_driver_fault specGen specHnd 1 { exState with d := none }
    (event.Event.other 0) rfl

/-- C7: when the window after its semantic rebuild has no previous tree
    snapshot (first frame), the diff accessor returns the caller accumulator
    unchanged; the result is an ordinary value, not an error. -/
theorem C7_first_frame_diff (c : CState) (diffs : List SemanticID)
    (h : (Window.UpdateSemantics c.w).Semantic.PrevTree = []) :
    (callbacks.AppendSemanticDiffs c diffs).2 = diffs := by
  simp [callbacks.AppendSemanticDiffs, h]

/-- Witness for C7 at a concrete first-frame state. -/
theorem C7_witness :
    (Window.UpdateSemantics exState.w).Semantic.PrevTree = []
    ∧ (callbacks.AppendSemanticDiffs exState [3, 4]).2 = [3, 4] :=
  ⟨rfl, C7_first_frame_diff exState [3, 4] rfl⟩

/-- C8: SetDriver replaces the driver handle; it hands the window, through
    the single-slot overwriting handoff, a wake-up callback that forces
    delivery of a WakeupEvent when the driver is bound and a no-op when it
    is cleared; and a second SetDriver overwrites the first entirely. -/
theorem C8_set_driver (c : CState) (d d1 d2 : Option Nat) (dd : Nat) :
    (callbacks.SetDriver c d).d = d
    ∧ (callbacks.SetDriver c (some dd)).w.WakeupSlot = WakeupFn.wake dd
    ∧ (callbacks.SetDriver c none).w.WakeupSlot = WakeupFn.noop
    ∧ WakeupFn.run (WakeupFn.wake dd) = [event.Event.wakeup]
    ∧ WakeupFn.run WakeupFn.noop = []
    ∧ callbacks.SetDriver (callbacks.SetDriver c d1) d2 = callbacks.SetDriver c d2 :=
  ⟨rfl, rfl, rfl, rfl, rfl, rfl⟩

/-- C9: SetEditorSnippet never mutates the editor state: after any completed
    call, whether or not a SnippetEvent was emitted, the IME state (selection,
    composition and in particular the snippet range) is exactly what it was
    before the call. -/
theorem C9_snippet_preserves_state (gen : event.Event → List event.Event)
    (hnd : event.Event → Bool) (fuel : Nat) (c : CState) (r : key.Range)
    (out : CState × List Eff)
    (h : callbacks.SetEditorSnippet gen hnd fuel c r = Except.ok out) :
    out.1.w.ImeState = c.w.ImeState := by
  unfold callbacks.SetEditorSnippet at h
  split at h
  · cases h; rfl
  · simp only [bind, Except.bind] at h
    cases he : callbacks.Event gen hnd fuel c (event.Event.snippet r) with
    | error err => rw [he] at h; cases h
    | ok trip =>
      rw [he] at h
      obtain ⟨b2, c2, tr⟩ := trip
      simp only [pure, Except.pure, Except.ok.injEq] at h
      rw [← h]
      exact (event_ok_shape gen hnd fuel _ _ _ _ _ he).1

/-- Witness for C9 at a concrete emitting call. -/
theorem C9_witness :
    callbacks.SetEditorSnippet specGen specHnd 1 exState { Start := 1, End := 2 }
      = Except.ok (exState, [Eff.proc (event.Event.snippet { Start := 1, End := 2 })])
    ∧ (exState, [Eff.proc (event.Event.snippet { Start := 1, End := 2 })]).1.w.ImeState
      = exState.w.ImeState :=
  ⟨rfl, C9_snippet_preserves_state specGen specHnd 1 exState { Start := 1, End := 2 }
    (exState, [Eff.proc (event.Event.snippet { Start := 1, End := 2 })]) rfl⟩

/-- C2 counterexample: from a concrete state whose snippet range is (0,0),
    SetEditorSnippet with the distinct range (1,2) returns the state
    unchanged, so the range is not stored; since the returned state equals
    the starting state, an immediately repeated identical call emits a second
    SnippetEvent, for two in total rather than exactly one. -/
theorem C2_counterexample :
    callbacks.SetEditorSnippet specGen specHnd 1 exState { Start := 1, End := 2 }
      = Except.ok (exState, [Eff.proc (event.Event.snippet { Start := 1, End := 2 })])
    ∧ exState.w.ImeState.Snippet.Range ≠ ({ Start := 1, End := 2 } : key.Range)
    ∧ snippetCount ([Eff.proc (event.Event.snippet { Start := 1, End := 2 })]
        ++ [Eff.proc (event.Event.snippet { Start := 1, End := 2 })]) = 2 :=
  ⟨rfl, by decide, rfl⟩

/-- C2 amended: if the requested range equals the current snippet range the
    call is a no-op emitting nothing; otherwise it emits a single
    SnippetEvent per call while leaving the stored snippet range unchanged,
    so two successive identical calls whose processing does not update the
    stored range emit two SnippetEvents, one each. -/
theorem C2_snippet_guard :
    (∀ (gen : event.Event → List event.Event) (hnd : event.Event → Bool)
        (fuel : Nat) (c : CState) (r : key.Range),
        c.w.ImeState.Snippet.Range = r →
        callbacks.SetEditorSnippet gen hnd fuel c r = Except.ok (c, []))
    ∧ (∀ (hnd : event.Event → Bool) (fuel : Nat) (c : CState) (dd : Nat)
        (r : key.Range),
        c.d = some dd → c.busy = false → c.waitEvents = [] →
        c.w.ImeState.Snippet.Range ≠ r →
        callbacks.SetEditorSnippet specGen hnd (fuel+1) c r
          = Except.ok ({ c with waitEvents := [] },
              [Eff.proc (event.Event.snippet r)])
        ∧ callbacks.SetEditorSnippet specGen hnd (fuel+1)
            { c with waitEvents := ([] : List event.Event) } r
          = Except.ok ({ c with waitEvents := [] },
              [Eff.proc (event.Event.snippet r)])) := by
  constructor
  · intro gen hnd fuel c r hsn
    unfold callbacks.SetEditorSnippet
    rw [if_pos (by simpa [callbacks.EditorState] using hsn)]
  · intro hnd fuel c dd r hd hb hw hsn
    constructor
    · unfold callbacks.SetEditorSnippet
      rw [if_neg (by simpa [callbacks.EditorState] using hsn)]
      simp only [bind, Except.bind]
      rw [event_simple hnd fuel c dd (event.Event.snippet r) hd hb hw (by simp)]
      rfl
    · unfold callbacks.SetEditorSnippet
      rw [if_neg (by simpa [callbacks.EditorState] using hsn)]
      simp only [bind, Except.bind]
      rw [event_simple hnd fuel { c with waitEvents := ([] : List event.Event) }
        dd (event.Event.snippet r) hd hb rfl (by simp)]
      rfl

/-- Witness for the C2 amended theorem at concrete inputs. -/
theorem C2_witness :
    callbacks.SetEditorSnippet specGen specHnd 1 exState { Start := 0, End := 0 }
      = Except.ok (exState, [])
    ∧ (callbacks.SetEditorSnippet specGen specHnd 1 exState { Start := 1, End := 2 }
        = Except.ok ({ exState with waitEvents := [] },
            [Eff.proc (event.Event.snippet { Start := 1, End := 2 })])
      ∧ callbacks.SetEditorSnippet specGen specHnd 1
          { exState with waitEvents := ([] : List event.Event) } { Start := 1, End := 2 }
        = Except.ok ({ exState with waitEvents := [] },
            [Eff.proc (event.Event.snippet { Start := 1, End := 2 })])) :=
  ⟨C2_snippet_guard.1 specGen specHnd 1 exState { Start := 0, End := 0 } rfl,
   C2_snippet_guard.2 specHnd 0 exState 0 { Start := 1, End := 2 } rfl rfl rfl
     (by decide)⟩

/-- C3: for every text and every selection range, reversed ones included, a
    completed EditorInsert leaves the selection collapsed at the minimum of
    the old selection endpoints plus the rune count of the text; rune count
    is String.length, which counts unicode scalar values and not bytes, as
    the three-rune six-byte example shows. -/
theorem C3_insert_cursor_math :
    (∀ (gen : event.Event → List event.Event) (hnd : event.Event → Bool)
        (rep : mado.EditorState → key.Range → String → mado.EditorState)
        (fuel : Nat) (c : CState) (text : String) (out : CState × List Eff),
        callbacks.EditorInsert gen hnd rep fuel c text = Except.ok out →
        out.1.w.ImeState.Selection.Range
          = { Start := min c.w.ImeState.Selection.Range.Start
                  c.w.ImeState.Selection.Range.End + (text.length : Int),
              End := min c.w.ImeState.Selection.Range.Start
                  c.w.ImeState.Selection.Range.End + (text.length : Int) })
    ∧ (callbacks.EditorInsert specGen specHnd specReplace 1 exState "äöü").toOption.map
        (fun p => p.1.w.ImeState.Selection.Range) = some { Start := 3, End := 3 }
    ∧ "äöü".length = 3 ∧ "äöü".utf8ByteSize = 6 := by
  refine ⟨?_, by decide, by decide, by decide⟩
  intro gen hnd rep fuel c text out h
  have hmin : (if c.w.ImeState.Selection.Range.End < c.w.ImeState.Selection.Range.Start
        then c.w.ImeState.Selection.Range.End else c.w.ImeState.Selection.Range.Start)
      = min c.w.ImeState.Selection.Range.Start c.w.ImeState.Selection.Range.End := by
    by_cases hlt : c.w.ImeState.Selection.Range.End < c.w.ImeState.Selection.Range.Start
    · rw [if_pos hlt, min_eq_right (le_of_lt hlt)]
    · rw [if_neg hlt, min_eq_left (not_lt.mp hlt)]
  unfold callbacks.EditorInsert at h
  simp only [bind, Except.bind] at h
  cases hrep : callbacks.EditorReplace gen hnd rep fuel c
      c.w.ImeState.Selection.Range text with
  | error err => rw [hrep] at h; cases h
  | ok p1 =>
    rw [hrep] at h
    obtain ⟨c1, tr1⟩ := p1
    simp only at h
    split at h
    next err heq => cases h
    next p2 heq =>
      obtain ⟨c2, tr2⟩ := p2
      simp only [pure, Except.pure, Except.ok.injEq] at h
      rw [← h]
      have hsel := setSelection_sets gen hnd fuel c1 _ (c2, tr2) heq
      have h3 : c2.w.ImeState.Selection.Range
          = ({ Start := (if c.w.ImeState.Selection.Range.End
                  < c.w.ImeState.Selection.Range.Start
                then c.w.ImeState.Selection.Range.End
                else c.w.ImeState.Selection.Range.Start) + (text.length : Int),
               End := (if c.w.ImeState.Selection.Range.End
                  < c.w.ImeState.Selection.Range.Start
                then c.w.ImeState.Selection.Range.End
                else c.w.ImeState.Selection.Range.Start) + (text.length : Int) }
            : key.Range) := by
        rw [hsel]
      rw [show ((c2, tr1 ++ tr2).1) = c2 from rfl, h3, hmin]

/-- A concrete state with a reversed selection, for the C3 witness. -/
def exRev : CState :=
  { exState with w := { exState.w with ImeState := { exState.w.ImeState with
      Selection := { Range := { Start := 5, End := 2 } } } } }

/-- The concrete result of inserting two characters at the reversed
    selection of exRev. -/
def exC3out : CState × List Eff :=
  ({ exRev with w := { exRev.w with ImeState := { exRev.w.ImeState with
      Selection := { Range := { Start := 4, End := 4 } } } } },
   [Eff.proc (event.Event.edit { Start := 5, End := 2 } "ab"),
    Eff.proc (event.Event.snippet { Start := 0, End := 0 }),
    Eff.proc (event.Event.selection { Start := 4, End := 4 })])

/-- Witness for C3 at a concrete reversed selection: inserting a two-rune
    text at selection (5,2) collapses the selection to (4,4). -/
theorem C3_witness :
    callbacks.EditorInsert specGen specHnd specReplace 1 exRev "ab"
      = Except.ok exC3out
    ∧ exC3out.1.w.ImeState.Selection.Range = { Start := 4, End := 4 } :=
  ⟨rfl, Eq.trans
    (C3_insert_cursor_math.1 specGen specHnd specReplace 1 exRev "ab" exC3out rfl)
    (by decide)⟩

/-- C4: every completed EditorReplace from an idle dispatcher emits, in this
    order, an EditEvent with the given range and text followed by a
    SnippetEvent carrying the post-edit snippet range; consequently the
    insert scenario with initial selection (0,0) and text of two runes emits
    EditEvent, SnippetEvent, SelectionEvent (2,2) in order and leaves the
    selection at (2,2). -/
theorem C4_replace_event_order :
    (∀ (hnd : event.Event → Bool)
        (rep : mado.EditorState → key.Range → String → mado.EditorState)
        (fuel : Nat) (c : CState) (dd : Nat) (r : key.Range) (text : String),
        c.d = some dd → c.busy = false → c.waitEvents = [] →
        callbacks.EditorReplace specGen hnd rep (fuel+1) c r text
          = Except.ok
              ({ c with
                  w := { c.w with ImeState := rep c.w.ImeState r text },
                  waitEvents := [] },
               [Eff.proc (event.Event.edit r text),
                Eff.proc (event.Event.snippet (rep c.w.ImeState r text).Snippet.Range)]))
    ∧ (∀ rep : mado.EditorState → key.Range → String → mado.EditorState,
        callbacks.EditorInsert specGen specHnd rep 1 exState "hi"
          = Except.ok
              ({ exState with w := { exState.w with ImeState :=
                  { rep exState.w.ImeState { Start := 0, End := 0 } "hi" with
                    Selection := { Range := { Start := 2, End := 2 } } } } },
               [Eff.proc (event.Event.edit { Start := 0, End := 0 } "hi"),
                Eff.proc (event.Event.snippet
                  (rep exState.w.ImeState { Start := 0, End := 0 } "hi").Snippet.Range),
                Eff.proc (event.Event.selection { Start := 2, End := 2 })])
          ∧ ({ rep exState.w.ImeState { Start := 0, End := 0 } "hi" with
                Selection := ({ Range := { Start := 2, End := 2 } }
                  : mado.SelectionData) } : mado.EditorState).Selection.Range
              = { Start := 2, End := 2 }) := by
  constructor
  · intro hnd rep fuel c dd r text hd hb hw
    unfold callbacks.EditorReplace
    simp only [bind, Except.bind]
    rw [event_simple hnd fuel
      { c with w := { c.w with ImeState := rep c.w.ImeState r text } }
      dd (event.Event.edit r text) hd hb hw (by simp)]
    simp only
    rw [event_simple hnd fuel
      { c with
        w := { c.w with ImeState := rep c.w.ImeState r text },
        waitEvents := [] }
      dd (event.Event.snippet (rep c.w.ImeState r text).Snippet.Range)
      hd hb rfl (by simp)]
    rfl
  · intro rep
    exact ⟨rfl, rfl⟩

/-- Witness for C4 at a concrete replace call. -/
theorem C4_witness :
    callbacks.EditorReplace specGen specHnd specReplace 1 exState
        { Start := 1, End := 3 } "xy"
      = Except.ok
          ({ exState with
              w := { exState.w with ImeState := specReplace exState.w.ImeState { Start := 1, End := 3 } "xy" },
              waitEvents := [] },
           [Eff.proc (event.Event.edit { Start := 1, End := 3 } "xy"),
            Eff.proc (event.Event.snippet
              (specReplace exState.w.ImeState
                { Start := 1, End := 3 } "xy").Snippet.Range)]) :=
  C4_replace_event_order.1 specHnd specReplace 0 exState 0
    { Start := 1, End := 3 } "xy" rfl rfl rfl

/-- C6: a top-level WakeupEvent delivery that finds a pending configuration
    batch folds the options left to right over a record seeded with the
    current decoration flag (for the batch [A, B] the folded record is B
    applied to the result of applying A to the seed), stores the folded flag
    on the window, and hands the driver the finalized options whose derived
    decoration height is zero whenever the folded flag is false. -/
theorem C6_config_fold (A B : mado.Option) (m : mado.Metric) (enabled : Bool)
    (height : Int) (ime : mado.EditorState) (sem : SemanticState)
    (slot : WakeupFn) (dd : Nat) (hnd : event.Event → Bool) :
    callbacks.Event specGen hnd 1
      { w := { ImeState := ime, Semantic := sem,
               Decorations := { Enabled := enabled, Height := height },
               Metric := m, Options := some [A, B], Actions := none,
               Destroy := false, WakeupSlot := slot },
        d := some dd, busy := false, waitEvents := [] }
      event.Event.wakeup
    = Except.ok (hnd event.Event.wakeup,
        { w := { ImeState := ime, Semantic := sem,
                 Decorations := { Enabled := (B m (A m { Decorated := enabled })).Decorated,
                                  Height := height },
                 Metric := m, Options := none, Actions := none,
                 Destroy := false, WakeupSlot := slot },
          d := some dd, busy := false, waitEvents := [] },
        [Eff.proc event.Event.wakeup,
         Eff.configure [A, B, mado.DecoHeightOpt
           (if (B m (A m { Decorated := enabled })).Decorated then height else 0)]]) := by
  rfl

/-- C10: acceptError is total and classifies the fetched error by code: nil
    when no error is pending; the error itself when its code is among the
    accepted codes; log-and-nil for an unaccepted platformError; and a panic
    for every other unaccepted code, the documented programmer error codes
    included; fetchError itself is a plain non-blocking function returning
    nil on an empty slot. -/
theorem C10_accept_error_classification :
    (∀ codes : List glfw.ErrorCode,
        glfw.acceptError codes none = (glfw.AcceptOutcome.returnedNil, none))
    ∧ glfw.fetchError none = (none, none)
    ∧ (∀ (codes : List glfw.ErrorCode) (e : glfw.Error),
        codes.contains e.Code = true →
        glfw.acceptError codes (some e) = (glfw.AcceptOutcome.returnedErr e, none))
    ∧ (∀ (codes : List glfw.ErrorCode) (e : glfw.Error),
        codes.contains e.Code = false → e.Code = glfw.platformError →
        glfw.acceptError codes (some e) = (glfw.AcceptOutcome.loggedNil e, none))
    ∧ (∀ (codes : List glfw.ErrorCode) (e : glfw.Error),
        codes.contains e.Code = false → e.Code ≠ glfw.platformError →
        glfw.acceptError codes (some e) = (glfw.AcceptOutcome.panicked e, none)) := by
  refine ⟨fun codes => rfl, rfl, ?_, ?_, ?_⟩
  · intro codes e hc
    simp only [glfw.acceptError, glfw.fetchError]
    rw [if_pos hc]
  · intro codes e hc hp
    simp only [glfw.acceptError, glfw.fetchError]
    rw [if_neg (by rw [hc]; exact Bool.false_ne_true), if_pos hp]
  · intro codes e hc hp
    simp only [glfw.acceptError, glfw.fetchError]
    rw [if_neg (by rw [hc]; exact Bool.false_ne_true), if_neg hp]
    split
    · rfl
    · rfl

/-- Witness for C10 at concrete errors: an accepted apiUnavailable is
    returned, an unaccepted platformError is logged away, an unaccepted
    notInitialized panics, and an unrecognized unaccepted code panics. -/
theorem C10_witness :
    glfw.acceptError [glfw.apiUnavailable]
        (some { Code := glfw.apiUnavailable, Desc := "a" })
      = (glfw.AcceptOutcome.returnedErr { Code := glfw.apiUnavailable, Desc := "a" }, none)
    ∧ glfw.acceptError [glfw.apiUnavailable]
        (some { Code := glfw.platformError, Desc := "p" })
      = (glfw.AcceptOutcome.loggedNil { Code := glfw.platformError, Desc := "p" }, none)
    ∧ glfw.acceptError []
        (some { Code := glfw.notInitialized, Desc := "n" })
      = (glfw.AcceptOutcome.panicked { Code := glfw.notInitialized, Desc := "n" }, none)
    ∧ glfw.acceptError []
        (some { Code := 9999, Desc := "u" })
      = (glfw.AcceptOutcome.panicked { Code := 9999, Desc := "u" }, none)
    ∧ glfw.acceptError [glfw.apiUnavailable] none
      = (glfw.AcceptOutcome.returnedNil, none) :=
  ⟨C10_accept_error_classification.2.2.1 [glfw.apiUnavailable]
      { Code := glfw.apiUnavailable, Desc := "a" } (by decide),
   C10_accept_error_classification.2.2.2.1 [glfw.apiUnavailable]
      { Code := glfw.platformError, Desc := "p" } (by decide) (by decide),
   C10_accept_error_classification.2.2.2.2 []
      { Code := glfw.notInitialized, Desc := "n" } (by decide) (by decide),
   C10_accept_error_classification.2.2.2.2 []
      { Code := 9999, Desc := "u" } (by decide) (by decide),
   C10_accept_error_classification.1 [glfw.apiUnavailable]⟩
